import Mathlib

/-!
Verification of the admix consistency classifier (`admix/showrun.py`,
`showdataset`, step-3 analysis loop) and the deletion daemon
(`admix/daemons/delete.py`, `DeleteDaemon`) against their specification.

The embedding is shallow: the per-RSE analysis of `showdataset` becomes a
pure function from the per-RSE observation record and the dataset-level
context to the list of warnings it prints; the daemon's methods become
pure functions in `Except` over the Python exceptions they can raise.
-/

namespace Admix

/-- One entry of the `rses` dictionary that `showdataset` fills in step 2:
the per-RSE observation merged from the run database and Rucio
(`rse['name']`, `rse['DBentries']`, `rse['DBStatus']`,
`rse['RucioExists']`, `rse['RucioNFiles']`). `RucioNFiles` is
`len(replicas)`, hence a natural number. -/
structure RseInfo where
  name : String
  DBentries : Nat
  DBStatus : String
  RucioExists : Bool
  RucioNFiles : Nat
deriving DecidableEq, Repr

/-- Dataset-level context available to the step-3 analysis of
`showdataset`: `Nfiles` (the database file count, `-1` when the datum has
no `file_count` field), `ebstatus` (the event-builder datum status, `""`
when absent), `nRsesWithData` (`len(rses_with_data)`, the number of Rucio
rules for the DID), and `uploadTo` (the module constant `UPLOAD_TO`). -/
structure DsetCtx where
  Nfiles : Int
  ebstatus : String
  nRsesWithData : Nat
  uploadTo : String
deriving DecidableEq, Repr

/-- The warnings the step-3 loop of `showdataset` can print, one
constructor per warning branch; the generic non-target warning prints the
whole `rse` record, so it carries it. -/
inductive Finding where
  | ruleNotCreated
  | dbNotUpdated
  | offsiteRulesMissing
  | ebStatusBlocked
  | markTransferred
  | uploadInterrupted
  | inconsistentReplica (r : RseInfo)
deriving DecidableEq, Repr

/-- The `admix-fix`/`rucio` commands printed as the hint of each warning,
in the order the source prints them. -/
def hints : Finding → List String
  | .ruleNotCreated => ["rucio add-rule", "admix-fix --fix_upload_db",
      "admix-fix --create_upload_rules"]
  | .dbNotUpdated => ["admix-fix --fix_upload_db", "admix-fix --create_upload_rules"]
  | .offsiteRulesMissing => ["admix-fix --create_upload_rules"]
  | .ebStatusBlocked => ["admix-fix --set_eb_status eb_ready_to_upload"]
  | .markTransferred => ["admix-fix --set_eb_status transferred"]
  | .uploadInterrupted => ["admix-fix --fix_upload"]
  | .inconsistentReplica _ => []

/-- Case 1 guard: `rse['RucioNFiles']==Nfiles and not rse['RucioExists']
and rse['DBStatus']=="" and rse['DBentries']==0 and
len(rses_with_data)==0`. -/
def case1Cond (r : RseInfo) (c : DsetCtx) : Prop :=
  (r.RucioNFiles : Int) = c.Nfiles ∧ r.RucioExists = false ∧ r.DBStatus = "" ∧
    r.DBentries = 0 ∧ c.nRsesWithData = 0

/-- Case 2 guard: `rse['RucioNFiles']==Nfiles and rse['RucioExists'] and
rse['DBStatus']=="" and rse['DBentries']==0 and len(rses_with_data)==1`. -/
def case2Cond (r : RseInfo) (c : DsetCtx) : Prop :=
  (r.RucioNFiles : Int) = c.Nfiles ∧ r.RucioExists = true ∧ r.DBStatus = "" ∧
    r.DBentries = 0 ∧ c.nRsesWithData = 1

/-- Case 3 guard: `rse['RucioNFiles']==Nfiles and rse['RucioExists'] and
rse['DBStatus']=="transferred" and rse['DBentries']==1 and
len(rses_with_data)==1`. -/
def case3Cond (r : RseInfo) (c : DsetCtx) : Prop :=
  (r.RucioNFiles : Int) = c.Nfiles ∧ r.RucioExists = true ∧
    r.DBStatus = "transferred" ∧ r.DBentries = 1 ∧ c.nRsesWithData = 1

/-- First case-4 guard: `rse['RucioNFiles']==0 and not rse['RucioExists']
and rse['DBStatus']=="" and rse['DBentries']==0 and
len(rses_with_data)==0 and ebstatus not in ["","transferred"]`. -/
def case4Cond (r : RseInfo) (c : DsetCtx) : Prop :=
  r.RucioNFiles = 0 ∧ r.RucioExists = false ∧ r.DBStatus = "" ∧
    r.DBentries = 0 ∧ c.nRsesWithData = 0 ∧
    c.ebstatus ≠ "" ∧ c.ebstatus ≠ "transferred"

/-- Second case-4 guard (mark transferred): `rse['RucioNFiles']==Nfiles
and rse['RucioExists'] and rse['DBStatus']=="transferred" and
rse['DBentries']==1 and len(rses_with_data)>0 and ebstatus not in
["","transferred"]`. -/
def case4bCond (r : RseInfo) (c : DsetCtx) : Prop :=
  (r.RucioNFiles : Int) = c.Nfiles ∧ r.RucioExists = true ∧
    r.DBStatus = "transferred" ∧ r.DBentries = 1 ∧ 0 < c.nRsesWithData ∧
    c.ebstatus ≠ "" ∧ c.ebstatus ≠ "transferred"

/-- Case 5 guard: `rse['RucioNFiles']!=Nfiles and rse['RucioExists'] and
rse['DBStatus']=="" and rse['DBentries']==0 and len(rses_with_data)==1
and ebstatus=="transferring"`. -/
def case5Cond (r : RseInfo) (c : DsetCtx) : Prop :=
  (r.RucioNFiles : Int) ≠ c.Nfiles ∧ r.RucioExists = true ∧ r.DBStatus = "" ∧
    r.DBentries = 0 ∧ c.nRsesWithData = 1 ∧ c.ebstatus = "transferring"

/-- Non-target healthy test, the negated condition of the final warning:
`(rse['RucioNFiles']==Nfiles and rse['RucioExists'] and
rse['DBentries']==1 and rse['DBStatus']=='transferred') or
(rse['RucioNFiles']==0 and not rse['RucioExists'] and
rse['DBentries']==0 and rse['DBStatus']!='transferred')`. -/
def nonTargetHealthy (r : RseInfo) (c : DsetCtx) : Prop :=
  ((r.RucioNFiles : Int) = c.Nfiles ∧ r.RucioExists = true ∧
    r.DBentries = 1 ∧ r.DBStatus = "transferred") ∨
  (r.RucioNFiles = 0 ∧ r.RucioExists = false ∧ r.DBentries = 0 ∧
    r.DBStatus ≠ "transferred")

instance (r : RseInfo) (c : DsetCtx) : Decidable (case1Cond r c) := by
  unfold case1Cond; infer_instance

instance (r : RseInfo) (c : DsetCtx) : Decidable (case2Cond r c) := by
  unfold case2Cond; infer_instance

instance (r : RseInfo) (c : DsetCtx) : Decidable (case3Cond r c) := by
  unfold case3Cond; infer_instance

instance (r : RseInfo) (c : DsetCtx) : Decidable (case4Cond r c) := by
  unfold case4Cond; infer_instance

instance (r : RseInfo) (c : DsetCtx) : Decidable (case4bCond r c) := by
  unfold case4bCond; infer_instance

instance (r : RseInfo) (c : DsetCtx) : Decidable (case5Cond r c) := by
  unfold case5Cond; infer_instance

instance (r : RseInfo) (c : DsetCtx) : Decidable (nonTargetHealthy r c) := by
  unfold nonTargetHealthy; infer_instance

/-- The step-3 body of `showdataset` for one RSE: on the upload target it
runs the six independent `if` statements in source order, collecting every
warning whose guard holds; on any other RSE it prints the generic
inconsistency warning (with the full record) unless the healthy test
holds. -/
def analyzeRse (r : RseInfo) (c : DsetCtx) : List Finding :=
  if r.name = c.uploadTo then
    (if case1Cond r c then [Finding.ruleNotCreated] else []) ++
    (if case2Cond r c then [Finding.dbNotUpdated] else []) ++
    (if case3Cond r c then [Finding.offsiteRulesMissing] else []) ++
    (if case4Cond r c then [Finding.ebStatusBlocked] else []) ++
    (if case4bCond r c then [Finding.markTransferred] else []) ++
    (if case5Cond r c then [Finding.uploadInterrupted] else [])
  else
    if nonTargetHealthy r c then [] else [Finding.inconsistentReplica r]

/-! ## The deletion daemon (`admix/daemons/delete.py`) -/

/-- The Python exceptions the embedded daemon code can raise.
`keyError` is `self.rse_dict[rse]` on an absent key, `valueError` is
`np.argmax` of an empty sequence, `nameError` is the lookup of an unbound
name, `notImplementedError` is the `else` branch of `do_task`.
`noLocationError` is the error the specification's taxonomy names for a
DID with no locations; no statement in `delete.py` raises it, and the
constructor exists only to state that. -/
inductive PyErr where
  | keyError
  | valueError
  | nameError
  | notImplementedError
  | noLocationError
deriving DecidableEq, Repr

instance {ε α : Type} [DecidableEq ε] [DecidableEq α] : DecidableEq (Except ε α) :=
  fun a b =>
    match a, b with
    | Except.error e, Except.error f =>
      if h : e = f then isTrue (by rw [h])
      else isFalse fun hc => h (Except.error.inj hc)
    | Except.error _, Except.ok _ => isFalse fun hc => Except.noConfusion hc
    | Except.ok _, Except.error _ => isFalse fun hc => Except.noConfusion hc
    | Except.ok x, Except.ok y =>
      if h : x = y then isTrue (by rw [h])
      else isFalse fun hc => h (Except.ok.inj hc)

/-- Python `dict` lookup for the RSE storage dictionary built by
`build_rse_storage_dict` (keyed by RSE name, value `bytes_remaining`). -/
def lookupRse (dict : List (String × Nat)) (k : String) : Option Nat :=
  match dict with
  | [] => none
  | (a, b) :: rest => if a = k then some b else lookupRse rest k

/-- The `remaining_storage` loop of `find_priority`: look up
`self.rse_dict[rse]` for each RSE in order; an absent key raises
`KeyError` at the first offending RSE. -/
def storages (dict : List (String × Nat)) : List String → Except PyErr (List Nat)
  | [] => Except.ok []
  | r :: rest =>
    match lookupRse dict r with
    | none => Except.error PyErr.keyError
    | some b => (storages dict rest).map (fun tl => b :: tl)

/-- `np.argmax` on a nonempty list: the index of the first occurrence of
the maximum (on `[]` the caller raises `valueError` instead). -/
def argmaxIdx : List Nat → Nat
  | [] => 0
  | x :: xs => if xs.all (fun y => decide (y ≤ x)) then 0 else argmaxIdx xs + 1

/-- The per-DID body of `find_priority`'s loop, lines 49-56: build
`remaining_storage` from the storage dictionary, then
`max_rse = rses[np.argmax(remaining_storage)]`. -/
def selectOne (dict : List (String × Nat)) (rses : List String) : Except PyErr String :=
  match storages dict rses with
  | Except.error e => Except.error e
  | Except.ok sto =>
    match rses with
    | [] => Except.error PyErr.valueError
    | _ :: _ => Except.ok (rses.getD (argmaxIdx sto) "")

/-- `self.tagged_on_rse[self.tagged_dids==d]`: with the two equal-length
parallel arrays represented as a list of (did, rse) pairs, the boolean
mask keeps the rse of every pair whose did equals `d`. -/
def locationsFor (tagged : List (String × String)) (d : String) : List String :=
  (tagged.filter (fun p => p.1 == d)).map Prod.snd

/-- `np.unique(self.tagged_dids)`: the distinct dids, sorted. -/
def uniqueDids (tagged : List (String × String)) : List String :=
  ((tagged.map Prod.fst).dedup).insertionSort (fun a b => a ≤ b)

/-- One iteration of `find_priority`'s loop over the unique tagged dids:
pick `max_rse` for the did's RSEs and mark every other RSE of `d`
to-delete (`for rse in rses: if rse != max_rse: ... append`). -/
def processDid (tagged : List (String × String)) (dict : List (String × Nat))
    (d : String) : Except PyErr (List (String × String)) :=
  let rses := locationsFor tagged d
  (selectOne dict rses).map fun maxRse =>
    (rses.filter (fun rse => rse != maxRse)).map (fun rse => (d, rse))

/-- The loop of `find_priority` over a list of dids, accumulating the
(did, rse) pairs marked to-delete in order; a Python exception raised in
an iteration propagates and aborts the whole loop. -/
def findPriorityAux (tagged : List (String × String)) (dict : List (String × Nat)) :
    List String → Except PyErr (List (String × String))
  | [] => Except.ok []
  | d :: ds =>
    match processDid tagged dict d with
    | Except.error e => Except.error e
    | Except.ok xs =>
      match findPriorityAux tagged dict ds with
      | Except.error e => Except.error e
      | Except.ok rest => Except.ok (xs ++ rest)

/-- `find_priority`: loop over `np.unique(self.tagged_dids)` and collect
the to-delete pairs (`self.to_delete_dids` zipped with
`self.to_delete_on_rse`). The storage dictionary is the collaborator data
`build_rse_storage_dict` fetches from Rucio, passed in here. -/
def findPriority (tagged : List (String × String)) (dict : List (String × Nat)) :
    Except PyErr (List (String × String)) :=
  findPriorityAux tagged dict (uniqueDids tagged)

/-- The mutable arrays `DeleteDaemon.__init__` creates on the instance
(each starts as the empty `np.array([])`). -/
structure TagState where
  tagged_dids : List String
  tagged_on_rse : List String
  to_delete_dids : List String
  to_delete_on_rse : List String
deriving DecidableEq, Repr

/-- The daemon state right after `__init__`: four empty arrays. -/
def initState : TagState :=
  { tagged_dids := [], tagged_on_rse := [], to_delete_dids := [], to_delete_on_rse := [] }

/-- One `data` entry of a run document. `did` is `d.get('did')` (`none`
when the field is missing); `location` is `none` when `d['location']`
would raise a `KeyError` (caught by the bare `except`). -/
structure Datum where
  did : Option String
  location : Option String
deriving DecidableEq, Repr

/-- A run document returned by the `_single_copy`-tag query. -/
structure Run where
  data : List Datum
deriving DecidableEq, Repr

/-- The body of `find_single_copy`'s inner loop for one datum: skip a
missing/empty did (`if d.get('did')`), parse the dtype from
`d['did'].split(':')[1].split('-')[0]` (an `IndexError` is swallowed by
`except: pass`, as is a `KeyError` on `d['location']`), apply the
raw-type and excluded-RSE filters, and then evaluate
`np.append(self.tagged_dids, d['did'])` and
`np.append(self.tagged_on_rse, d['location'])`. `np.append` returns a
fresh array and the source discards it (modelled by the unused `let`),
so every branch leaves the daemon state unchanged. `rawDtypes` stands
for the module constant `utils.RAW_DTYPES` (defined outside this file's
sources). -/
def processDatum (rawDtypes : List String) (raw_type_only : Bool)
    (exclude_rses : List String) (s : TagState) (d : Datum) : TagState :=
  match d.did with
  | none => s
  | some did =>
    if did = "" then s
    else
      match (did.splitOn ":").get? 1 with
      | none => s
      | some tail =>
        let dtype := (tail.splitOn "-").headD ""
        if raw_type_only then
          if rawDtypes.contains dtype then
            match d.location with
            | none => s
            | some loc =>
              if !(exclude_rses.contains loc) then
                let _ := s.tagged_dids ++ [did]
                let _ := s.tagged_on_rse ++ [loc]
                s
              else s
          else s
        else
          match d.location with
          | none => s
          | some loc =>
            if !(exclude_rses.contains loc) then
              let _ := s.tagged_dids ++ [did]
              let _ := s.tagged_on_rse ++ [loc]
              s
            else s

/-- The double loop of `find_single_copy` over the tagged runs and their
`data` entries. -/
def findSingleCopyLoop (rawDtypes : List String) (raw_type_only : Bool)
    (exclude_rses : List String) (s : TagState) (runs : List Run) : TagState :=
  runs.foldl
    (fun st run => run.data.foldl (processDatum rawDtypes raw_type_only exclude_rses) st)
    s

/-- The names bound in the local scope of `find_single_copy` (its
parameters and every name it assigns). -/
def findSingleCopyLocals : List String :=
  ["self", "raw_type_only", "exclude_rses", "query", "n_tagged", "i", "cursor",
   "d", "dtype"]

/-- The module-level names of `admix/daemons/delete.py` (its imports and
the class it defines). -/
def deleteModuleGlobals : List String :=
  ["pymongo", "tqdm", "xent_collection", "utils", "rucio", "np", "DeleteDaemon"]

/-- Python name resolution inside `find_single_copy`: local scope, then
module globals (the name is not a builtin either); failure raises
`NameError`. -/
def resolveName (n : String) : Except PyErr Unit :=
  if findSingleCopyLocals.contains n || deleteModuleGlobals.contains n then
    Except.ok ()
  else Except.error PyErr.nameError

/-- `find_single_copy`: run the tagging loop, then execute the final
report line `print('Found %s runs to delete'%(len(tagged_dids)))`, which
reads the name `tagged_dids`. The result is the daemon state after the
loop together with the outcome of that final statement. -/
def findSingleCopy (rawDtypes : List String) (raw_type_only : Bool)
    (exclude_rses : List String) (s : TagState) (runs : List Run) :
    TagState × Except PyErr Unit :=
  (findSingleCopyLoop rawDtypes raw_type_only exclude_rses s runs,
   resolveName "tagged_dids")

/-- `find_priority` as a method: read the tagged parallel arrays from the
daemon state and store the to-delete pairs back into it. -/
def findPriorityState (dict : List (String × Nat)) (s : TagState) :
    Except PyErr TagState :=
  (findPriority (s.tagged_dids.zip s.tagged_on_rse) dict).map fun pairs =>
    { s with to_delete_dids := pairs.map Prod.fst,
             to_delete_on_rse := pairs.map Prod.snd }

/-- `do_task` on a freshly constructed daemon: in `'single_copy'` mode it
calls `find_single_copy` and then `find_priority`; any uncaught exception
aborts the task. Any other mode raises `NotImplementedError`. The final
state carries the to-delete lists that the subsequent deletion loop would
iterate over. -/
def doTask (rawDtypes : List String) (dict : List (String × Nat)) (runs : List Run)
    (mode : String) (raw_type_only : Bool) (exclude_rses : List String) :
    Except PyErr TagState :=
  if mode = "single_copy" then
    match findSingleCopy rawDtypes raw_type_only exclude_rses initState runs with
    | (_, Except.error e) => Except.error e
    | (s1, Except.ok _) => findPriorityState dict s1
  else Except.error PyErr.notImplementedError

/-! ## Helper lemmas about the daemon embedding -/

/-- Every branch of the datum-processing body returns the daemon state it
was given: the two discarded `np.append` results are the only writes. -/
lemma processDatum_id (rawDtypes : List String) (raw_type_only : Bool)
    (exclude_rses : List String) (s : TagState) (d : Datum) :
    processDatum rawDtypes raw_type_only exclude_rses s d = s := by
  unfold processDatum
  rcases d with ⟨did, location⟩
  cases did <;> cases location <;> dsimp only <;> (repeat' split) <;> rfl

lemma foldl_processDatum_id (rawDtypes : List String) (raw_type_only : Bool)
    (exclude_rses : List String) (ds : List Datum) (s : TagState) :
    ds.foldl (processDatum rawDtypes raw_type_only exclude_rses) s = s := by
  induction ds generalizing s with
  | nil => rfl
  | cons d ds ih => rw [List.foldl_cons, processDatum_id]; exact ih s

lemma findSingleCopyLoop_id (rawDtypes : List String) (raw_type_only : Bool)
    (exclude_rses : List String) (s : TagState) (runs : List Run) :
    findSingleCopyLoop rawDtypes raw_type_only exclude_rses s runs = s := by
  unfold findSingleCopyLoop
  induction runs generalizing s with
  | nil => rfl
  | cons run rest ih => rw [List.foldl_cons, foldl_processDatum_id]; exact ih s

/-- Membership in `np.unique(self.tagged_dids)` is membership in the
tagged-did array. -/
lemma mem_uniqueDids {tagged : List (String × String)} {d : String} :
    d ∈ uniqueDids tagged ↔ d ∈ tagged.map Prod.fst := by
  unfold uniqueDids
  rw [(List.perm_insertionSort _ _).mem_iff, List.mem_dedup]

/-- Every did processed by `find_priority`'s loop has at least one tagged
location: the loop's dids come from the same array the mask filters. -/
lemma locationsFor_ne_nil {tagged : List (String × String)} {d : String}
    (hd : d ∈ uniqueDids tagged) : locationsFor tagged d ≠ [] := by
  rw [mem_uniqueDids] at hd
  rcases List.mem_map.mp hd with ⟨p, hp, rfl⟩
  intro hnil
  have hmem : p.2 ∈ locationsFor tagged p.1 :=
    List.mem_map.mpr ⟨p, List.mem_filter.mpr ⟨hp, by simp⟩, rfl⟩
  rw [hnil] at hmem
  cases hmem

lemma storages_ok_of_all (dict : List (String × Nat)) (rses : List String)
    (h : ∀ r ∈ rses, lookupRse dict r ≠ none) :
    storages dict rses = Except.ok (rses.map fun r => (lookupRse dict r).getD 0) := by
  induction rses with
  | nil => rfl
  | cons r rest ih =>
    have hr := h r (List.mem_cons_self r rest)
    rcases hl : lookupRse dict r with _ | b
    · exact absurd hl hr
    · simp only [storages, hl, ih fun x hx => h x (List.mem_cons_of_mem r hx),
        Except.map, List.map_cons, Option.getD_some]

lemma storages_all_of_ok (dict : List (String × Nat)) (rses : List String)
    (caps : List Nat) (h : storages dict rses = Except.ok caps) :
    (∀ r ∈ rses, lookupRse dict r ≠ none) ∧
      caps = rses.map fun r => (lookupRse dict r).getD 0 := by
  induction rses generalizing caps with
  | nil =>
    simp only [storages, Except.ok.injEq] at h
    simp [← h]
  | cons r rest ih =>
    simp only [storages] at h
    rcases hl : lookupRse dict r with _ | b
    · rw [hl] at h; cases h
    · rw [hl] at h
      rcases hs : storages dict rest with e | tl
      · rw [hs] at h; cases h
      · rw [hs] at h
        simp only [Except.map, Except.ok.injEq] at h
        obtain ⟨hall, htl⟩ := ih tl hs
        subst h
        refine ⟨fun x hx => ?_, by simp [hl, htl]⟩
        rcases List.mem_cons.mp hx with rfl | hx'
        · simp [hl]
        · exact hall x hx'

lemma storages_error_of_missing (dict : List (String × Nat)) (rses : List String)
    (r : String) (hr : r ∈ rses) (hmiss : lookupRse dict r = none) :
    storages dict rses = Except.error PyErr.keyError := by
  induction rses with
  | nil => cases hr
  | cons a rest ih =>
    rcases List.mem_cons.mp hr with rfl | hmem
    · simp [storages, hmiss]
    · rcases ha : lookupRse dict a with _ | b
      · simp [storages, ha]
      · simp [storages, ha, ih hmem, Except.map]

lemma storages_error_eq (dict : List (String × Nat)) (rses : List String)
    (e : PyErr) (h : storages dict rses = Except.error e) : e = PyErr.keyError := by
  induction rses generalizing e with
  | nil => cases h
  | cons r rest ih =>
    simp only [storages] at h
    rcases hl : lookupRse dict r with _ | b
    · rw [hl] at h; cases h; rfl
    · rw [hl] at h
      rcases hs : storages dict rest with e' | tl
      · rw [hs] at h
        simp only [Except.map, Except.error.injEq] at h
        exact h ▸ ih e' hs
      · rw [hs] at h; cases h

lemma argmaxIdx_lt_length (l : List Nat) : l ≠ [] → argmaxIdx l < l.length := by
  induction l with
  | nil => intro h; exact absurd rfl h
  | cons x xs ih =>
    intro _
    unfold argmaxIdx
    by_cases hall : xs.all (fun y => decide (y ≤ x)) = true
    · simp [hall]
    · have hxs : xs ≠ [] := by intro h; subst h; simp at hall
      simp only [hall, if_false, List.length_cons]
      exact Nat.succ_lt_succ (ih hxs)

/-- The element `np.argmax` points at is an upper bound of the list. -/
lemma argmaxIdx_getD_max (l : List Nat) (i : Nat) :
    l.getD i 0 ≤ l.getD (argmaxIdx l) 0 := by
  induction l generalizing i with
  | nil => simp [argmaxIdx]
  | cons x xs ih =>
    unfold argmaxIdx
    by_cases hall : xs.all (fun y => decide (y ≤ x)) = true
    · rw [if_pos hall]
      cases i with
      | zero => exact Nat.le_refl x
      | succ j =>
        show xs.getD j 0 ≤ x
        rcases Nat.lt_or_ge j xs.length with hj | hj
        · have hmem : xs.getD j 0 ∈ xs := by
            rw [List.getD_eq_getElem _ _ hj]; exact xs.getElem_mem hj
          simpa using List.all_eq_true.mp hall _ hmem
        · rw [List.getD_eq_default _ _ hj]; exact Nat.zero_le x
    · rw [if_neg hall]
      cases i with
      | zero =>
        show x ≤ xs.getD (argmaxIdx xs) 0
        have hex : ∃ y ∈ xs, ¬ y ≤ x := by
          simpa [List.all_eq_true] using hall
        rcases hex with ⟨y, hy, hxy⟩
        rcases List.mem_iff_getElem.mp hy with ⟨k, hk, rfl⟩
        calc x ≤ xs[k] := Nat.le_of_lt (Nat.lt_of_not_le hxy)
          _ = xs.getD k 0 := (List.getD_eq_getElem _ _ hk).symm
          _ ≤ xs.getD (argmaxIdx xs) 0 := ih k
      | succ j => exact ih j

/-- `selectOne` on a nonempty RSE list with all capacities present picks
the RSE at the argmax index. -/
lemma selectOne_eq_ok (dict : List (String × Nat)) (rses : List String)
    (caps : List Nat) (hs : storages dict rses = Except.ok caps)
    (hne : rses ≠ []) :
    selectOne dict rses = Except.ok (rses.getD (argmaxIdx caps) "") := by
  unfold selectOne
  rw [hs]
  cases rses with
  | nil => exact absurd rfl hne
  | cons a l => rfl

/-- Removing one occurrence of a member from a duplicate-free list by
`filter (· != a)` shortens it by exactly one. -/
lemma length_filter_bne_of_nodup {l : List String} {a : String}
    (hn : l.Nodup) (ha : a ∈ l) :
    (l.filter fun x => x != a).length + 1 = l.length := by
  induction l with
  | nil => cases ha
  | cons x xs ih =>
    rcases List.nodup_cons.mp hn with ⟨hx, hxs⟩
    rcases List.mem_cons.mp ha with heq | hmem
    · subst heq
      have hfx : (a != a) = false := by simp
      have hall : xs.filter (fun y => y != a) = xs :=
        List.filter_eq_self.mpr fun y hy => by
          simp only [bne_iff_ne, ne_eq, decide_eq_true_eq]
          rintro rfl; exact hx hy
      simp [List.filter_cons, hfx, hall]
    · have hne : (x != a) = true := by
        simp only [bne_iff_ne, ne_eq]
        rintro rfl; exact hx hmem
      simp only [List.filter_cons, hne, if_true, List.length_cons]
      rw [← ih hxs hmem]

/-! ## Claims about the consistency classifier -/

/-- C1 counterexample: a record at the upload target whose attributes
satisfy the guards of pattern 3 and of the mark-transferred pattern at
the same time, so the analysis emits two findings, not at most one. -/
theorem upload_target_two_findings_cex :
    analyzeRse ⟨"LNGS_USERDISK", 1, "transferred", true, 5⟩
        ⟨5, "transferring", 1, "LNGS_USERDISK"⟩
      = [Finding.offsiteRulesMissing, Finding.markTransferred]
    ∧ 1 < (analyzeRse ⟨"LNGS_USERDISK", 1, "transferred", true, 5⟩
        ⟨5, "transferring", 1, "LNGS_USERDISK"⟩).length := by
  decide

/-- C1 (amended): at the upload target the analysis emits at most one
finding, except that exactly the guard pairs (pattern 1, pattern 4) and
(pattern 3, mark-transferred) are simultaneously satisfiable, in which
case it emits exactly that pair; no other two patterns can fire
together. -/
theorem upload_target_findings_near_exclusive (r : RseInfo) (c : DsetCtx)
    (h : r.name = c.uploadTo) :
    (analyzeRse r c).length ≤ 1
    ∨ analyzeRse r c = [Finding.ruleNotCreated, Finding.ebStatusBlocked]
    ∨ analyzeRse r c = [Finding.offsiteRulesMissing, Finding.markTransferred] := by
  unfold analyzeRse
  rw [if_pos h]
  by_cases hex : r.RucioExists = true
  · have h1 : ¬ case1Cond r c := by simp [case1Cond, hex]
    have h4 : ¬ case4Cond r c := by simp [case4Cond, hex]
    by_cases hst : r.DBStatus = ""
    · have h3 : ¬ case3Cond r c := by simp [case3Cond, hst]
      have h4b : ¬ case4bCond r c := by simp [case4bCond, hst]
      by_cases h2 : case2Cond r c
      · have h5 : ¬ case5Cond r c := fun hc => hc.1 h2.1
        left; simp [h1, h2, h3, h4, h4b, h5]
      · left; by_cases h5 : case5Cond r c <;> simp [h1, h2, h3, h4, h4b, h5]
    · have h2 : ¬ case2Cond r c := by simp [case2Cond, hst]
      have h5 : ¬ case5Cond r c := by simp [case5Cond, hst]
      by_cases htr : r.DBStatus = "transferred"
      · by_cases h3 : case3Cond r c <;> by_cases h4b : case4bCond r c
        · right; right; simp [h1, h2, h3, h4, h4b, h5]
        · left; simp [h1, h2, h3, h4, h4b, h5]
        · left; simp [h1, h2, h3, h4, h4b, h5]
        · left; simp [h1, h2, h3, h4, h4b, h5]
      · have h3 : ¬ case3Cond r c := by simp [case3Cond, htr]
        have h4b : ¬ case4bCond r c := by simp [case4bCond, htr]
        left; simp [h1, h2, h3, h4, h4b, h5]
  · rw [Bool.not_eq_true] at hex
    have h2 : ¬ case2Cond r c := by simp [case2Cond, hex]
    have h3 : ¬ case3Cond r c := by simp [case3Cond, hex]
    have h4b : ¬ case4bCond r c := by simp [case4bCond, hex]
    have h5 : ¬ case5Cond r c := by simp [case5Cond, hex]
    by_cases h1 : case1Cond r c <;> by_cases h4 : case4Cond r c
    · right; left; simp [h1, h2, h3, h4, h4b, h5]
    · left; simp [h1, h2, h3, h4, h4b, h5]
    · left; simp [h1, h2, h3, h4, h4b, h5]
    · left; simp [h1, h2, h3, h4, h4b, h5]

/-- C1 witness: the amended claim instantiated at a concrete
upload-target record. -/
theorem upload_target_findings_near_exclusive_witness :
    ((⟨"X", 0, "", false, 3⟩ : RseInfo).name = (⟨3, "", 0, "X"⟩ : DsetCtx).uploadTo)
    ∧ ((analyzeRse ⟨"X", 0, "", false, 3⟩ ⟨3, "", 0, "X"⟩).length ≤ 1
      ∨ analyzeRse ⟨"X", 0, "", false, 3⟩ ⟨3, "", 0, "X"⟩
          = [Finding.ruleNotCreated, Finding.ebStatusBlocked]
      ∨ analyzeRse ⟨"X", 0, "", false, 3⟩ ⟨3, "", 0, "X"⟩
          = [Finding.offsiteRulesMissing, Finding.markTransferred]) :=
  ⟨rfl, upload_target_findings_near_exclusive _ _ rfl⟩

/-- C4: at a non-target location the analysis emits no finding exactly
when one of the two healthy signatures holds, and in every other case it
emits exactly the generic inconsistency finding carrying the full
record. -/
theorem nontarget_branch_healthy_iff (r : RseInfo) (c : DsetCtx)
    (h : r.name ≠ c.uploadTo) :
    (analyzeRse r c = [] ↔
      (((r.RucioNFiles : Int) = c.Nfiles ∧ r.RucioExists = true ∧
          r.DBentries = 1 ∧ r.DBStatus = "transferred") ∨
        (r.RucioNFiles = 0 ∧ r.RucioExists = false ∧ r.DBentries = 0 ∧
          r.DBStatus ≠ "transferred")))
    ∧ (analyzeRse r c ≠ [] → analyzeRse r c = [Finding.inconsistentReplica r]) := by
  unfold analyzeRse
  rw [if_neg h]
  by_cases hh : nonTargetHealthy r c
  · rw [if_pos hh]
    exact ⟨⟨fun _ => hh, fun _ => rfl⟩, fun hne => absurd rfl hne⟩
  · rw [if_neg hh]
    refine ⟨⟨fun hcontra => ?_, fun hhealthy => absurd hhealthy hh⟩, fun _ => rfl⟩
    cases hcontra

/-- C4 witness: the non-target characterization instantiated at the
healthy scenario-2 record. -/
theorem nontarget_branch_healthy_iff_witness :
    ((⟨"NIKHEF2_USERDISK", 1, "transferred", true, 5⟩ : RseInfo).name
        ≠ (⟨5, "", 1, "LNGS_USERDISK"⟩ : DsetCtx).uploadTo)
    ∧ ((analyzeRse ⟨"NIKHEF2_USERDISK", 1, "transferred", true, 5⟩
          ⟨5, "", 1, "LNGS_USERDISK"⟩ = [] ↔
        ((((⟨"NIKHEF2_USERDISK", 1, "transferred", true, 5⟩ : RseInfo).RucioNFiles : Int)
            = (⟨5, "", 1, "LNGS_USERDISK"⟩ : DsetCtx).Nfiles ∧
          (⟨"NIKHEF2_USERDISK", 1, "transferred", true, 5⟩ : RseInfo).RucioExists = true ∧
          (⟨"NIKHEF2_USERDISK", 1, "transferred", true, 5⟩ : RseInfo).DBentries = 1 ∧
          (⟨"NIKHEF2_USERDISK", 1, "transferred", true, 5⟩ : RseInfo).DBStatus = "transferred") ∨
        ((⟨"NIKHEF2_USERDISK", 1, "transferred", true, 5⟩ : RseInfo).RucioNFiles = 0 ∧
          (⟨"NIKHEF2_USERDISK", 1, "transferred", true, 5⟩ : RseInfo).RucioExists = false ∧
          (⟨"NIKHEF2_USERDISK", 1, "transferred", true, 5⟩ : RseInfo).DBentries = 0 ∧
          (⟨"NIKHEF2_USERDISK", 1, "transferred", true, 5⟩ : RseInfo).DBStatus ≠ "transferred")))
      ∧ (analyzeRse ⟨"NIKHEF2_USERDISK", 1, "transferred", true, 5⟩
            ⟨5, "", 1, "LNGS_USERDISK"⟩ ≠ [] →
          analyzeRse ⟨"NIKHEF2_USERDISK", 1, "transferred", true, 5⟩
            ⟨5, "", 1, "LNGS_USERDISK"⟩
          = [Finding.inconsistentReplica ⟨"NIKHEF2_USERDISK", 1, "transferred", true, 5⟩])) :=
  ⟨by decide, nontarget_branch_healthy_iff _ _ (by decide)⟩

/-- C8: scenario 1 — ten files uploaded, no rule, empty status, no DB
entry, no off-site rule — triggers exactly the pattern-1 warning, whose
first remediation hint is creating the rule. -/
theorem scenario1_pattern1 :
    analyzeRse ⟨"LNGS_USERDISK", 0, "", false, 10⟩ ⟨10, "", 0, "LNGS_USERDISK"⟩
        = [Finding.ruleNotCreated]
    ∧ (hints Finding.ruleNotCreated).headD "" = "rucio add-rule" := by
  decide

/-- C10: when the database datum carries no file count (`Nfiles = -1`),
the registry file count (a list length, hence nonnegative) can never
equal it, so at the upload target only the never-started pattern (4) or
the interrupted-upload pattern (5) can fire. -/
theorem unknown_file_count_patterns (r : RseInfo) (c : DsetCtx)
    (h : r.name = c.uploadTo) (hn : c.Nfiles = -1) :
    analyzeRse r c = []
    ∨ analyzeRse r c = [Finding.ebStatusBlocked]
    ∨ analyzeRse r c = [Finding.uploadInterrupted] := by
  have hne : (r.RucioNFiles : Int) ≠ c.Nfiles := by rw [hn]; omega
  have h1 : ¬ case1Cond r c := fun hc => hne hc.1
  have h2 : ¬ case2Cond r c := fun hc => hne hc.1
  have h3 : ¬ case3Cond r c := fun hc => hne hc.1
  have h4b : ¬ case4bCond r c := fun hc => hne hc.1
  unfold analyzeRse
  rw [if_pos h]
  by_cases h4c : case4Cond r c
  · by_cases h5 : case5Cond r c
    · exact absurd h5.2.1 (by simp [h4c.2.1])
    · right; left; simp [h1, h2, h3, h4c, h4b, h5]
  · by_cases h5 : case5Cond r c
    · right; right; simp [h1, h2, h3, h4c, h4b, h5]
    · left; simp [h1, h2, h3, h4c, h4b, h5]

/-- C10 witness: the unknown-file-count property instantiated at a
concrete upload-target record with `Nfiles = -1`. -/
theorem unknown_file_count_patterns_witness :
    ((⟨"X", 0, "", false, 0⟩ : RseInfo).name = (⟨-1, "", 0, "X"⟩ : DsetCtx).uploadTo)
    ∧ ((⟨-1, "", 0, "X"⟩ : DsetCtx).Nfiles = -1)
    ∧ (analyzeRse ⟨"X", 0, "", false, 0⟩ ⟨-1, "", 0, "X"⟩ = []
      ∨ analyzeRse ⟨"X", 0, "", false, 0⟩ ⟨-1, "", 0, "X"⟩ = [Finding.ebStatusBlocked]
      ∨ analyzeRse ⟨"X", 0, "", false, 0⟩ ⟨-1, "", 0, "X"⟩ = [Finding.uploadInterrupted]) :=
  ⟨rfl, rfl, unknown_file_count_patterns _ _ rfl rfl⟩

/-! ## Claims about the deletion priority selector -/

/-- C2: for a DID whose tagged locations all have a recorded capacity,
with pairwise-distinct capacities and at least two locations, the
per-DID selection of `find_priority` keeps exactly the location of
maximum remaining capacity and marks exactly the other locations for
deletion: keep and delete partition the DID's location set, with
`|delete| + 1 = N`. -/
theorem selector_keeps_unique_max (tagged : List (String × String))
    (dict : List (String × Nat)) (d : String) (caps : List Nat)
    (hs : storages dict (locationsFor tagged d) = Except.ok caps)
    (hnd : caps.Nodup) (hlen : 2 ≤ (locationsFor tagged d).length) :
    ∃ keep,
      selectOne dict (locationsFor tagged d) = Except.ok keep ∧
      processDid tagged dict d = Except.ok
        (((locationsFor tagged d).filter fun rse => rse != keep).map fun rse => (d, rse)) ∧
      keep ∈ locationsFor tagged d ∧
      (∀ r ∈ locationsFor tagged d, r ≠ keep →
        (lookupRse dict r).getD 0 < (lookupRse dict keep).getD 0) ∧
      ((locationsFor tagged d).filter fun rse => rse != keep).length + 1
        = (locationsFor tagged d).length ∧
      keep ∉ ((locationsFor tagged d).filter fun rse => rse != keep) ∧
      ∀ r ∈ locationsFor tagged d, r = keep ∨
        r ∈ ((locationsFor tagged d).filter fun rse => rse != keep) := by
  set rses := locationsFor tagged d with hrs
  obtain ⟨hall, hcaps⟩ := storages_all_of_ok dict rses caps hs
  have hlc : caps.length = rses.length := by rw [hcaps, List.length_map]
  have hne : rses ≠ [] := by
    intro hnil
    rw [hnil] at hlen
    simp at hlen
  have hcapsne : caps ≠ [] := by
    intro hnil
    rw [hnil] at hlc
    exact hne (List.length_eq_zero.mp hlc.symm)
  have hj : argmaxIdx caps < caps.length := argmaxIdx_lt_length caps hcapsne
  have hjr : argmaxIdx caps < rses.length := by omega
  have hmapnodup : (rses.map fun r => (lookupRse dict r).getD 0).Nodup := by
    rw [← hcaps]; exact hnd
  have hrnodup : rses.Nodup := List.Nodup.of_map _ hmapnodup
  have hsel : selectOne dict rses = Except.ok (rses.getD (argmaxIdx caps) "") :=
    selectOne_eq_ok dict rses caps hs hne
  have hkeepel : rses.getD (argmaxIdx caps) "" = rses[argmaxIdx caps] :=
    List.getD_eq_getElem _ _ hjr
  have hkeepmem : rses.getD (argmaxIdx caps) "" ∈ rses := by
    rw [hkeepel]
    exact List.getElem_mem hjr
  have hcapel : ∀ (i : Nat) (hi : i < rses.length),
      caps.getD i 0 = (lookupRse dict rses[i]).getD 0 := by
    intro i hi
    have him : i < (rses.map fun r => (lookupRse dict r).getD 0).length := by
      rw [List.length_map]; exact hi
    rw [hcaps, List.getD_eq_getElem _ _ him, List.getElem_map]
  refine ⟨rses.getD (argmaxIdx caps) "", hsel, ?_, hkeepmem, ?_,
    length_filter_bne_of_nodup hrnodup hkeepmem, ?_, ?_⟩
  · simp only [processDid, ← hrs, hsel, Except.map]
  · intro r hr hrk
    rcases List.mem_iff_getElem.mp hr with ⟨i, hi, rfl⟩
    have hine : i ≠ argmaxIdx caps := by
      intro hieq
      apply hrk
      rw [hkeepel]
      congr 1
    have hle : caps.getD i 0 ≤ caps.getD (argmaxIdx caps) 0 := argmaxIdx_getD_max caps i
    have hi' : i < caps.length := by omega
    have hnecap : caps.getD i 0 ≠ caps.getD (argmaxIdx caps) 0 := by
      rw [List.getD_eq_getElem _ _ hi', List.getD_eq_getElem _ _ hj]
      intro heq
      exact hine (hnd.getElem_inj_iff.mp heq)
    have hlt : caps.getD i 0 < caps.getD (argmaxIdx caps) 0 :=
      lt_of_le_of_ne hle hnecap
    rw [hkeepel]
    rw [← hcapel i hi, ← hcapel (argmaxIdx caps) hjr]
    exact hlt
  · intro hmem
    have h2 := (List.mem_filter.mp hmem).2
    simp at h2
  · intro r hr
    by_cases hrk : r = rses.getD (argmaxIdx caps) ""
    · exact Or.inl hrk
    · exact Or.inr (List.mem_filter.mpr ⟨hr, by simpa [bne_iff_ne] using hrk⟩)

/-- C2 witness: the keep/delete partition instantiated for a DID tagged
at two locations with distinct capacities. -/
theorem selector_keeps_unique_max_witness :
    storages [("A", 1), ("B", 2)] (locationsFor [("d", "A"), ("d", "B")] "d")
        = Except.ok [1, 2]
    ∧ ([1, 2] : List Nat).Nodup
    ∧ 2 ≤ (locationsFor [("d", "A"), ("d", "B")] "d").length
    ∧ ∃ keep,
        selectOne [("A", 1), ("B", 2)] (locationsFor [("d", "A"), ("d", "B")] "d")
          = Except.ok keep ∧
        processDid [("d", "A"), ("d", "B")] [("A", 1), ("B", 2)] "d" = Except.ok
          (((locationsFor [("d", "A"), ("d", "B")] "d").filter fun rse => rse != keep).map
            fun rse => ("d", rse)) ∧
        keep ∈ locationsFor [("d", "A"), ("d", "B")] "d" ∧
        (∀ r ∈ locationsFor [("d", "A"), ("d", "B")] "d", r ≠ keep →
          (lookupRse [("A", 1), ("B", 2)] r).getD 0
            < (lookupRse [("A", 1), ("B", 2)] keep).getD 0) ∧
        ((locationsFor [("d", "A"), ("d", "B")] "d").filter fun rse => rse != keep).length + 1
          = (locationsFor [("d", "A"), ("d", "B")] "d").length ∧
        keep ∉ ((locationsFor [("d", "A"), ("d", "B")] "d").filter fun rse => rse != keep) ∧
        ∀ r ∈ locationsFor [("d", "A"), ("d", "B")] "d", r = keep ∨
          r ∈ ((locationsFor [("d", "A"), ("d", "B")] "d").filter fun rse => rse != keep) :=
  ⟨by decide, by decide, by decide,
    selector_keeps_unique_max [("d", "A"), ("d", "B")] [("A", 1), ("B", 2)] "d" [1, 2]
      (by decide) (by decide) (by decide)⟩

/-- C7: tie-break goes to the first maximum in input order: with
capacities A:500, B:1000, C:1000 and the DID tagged at A, B and C, the
per-DID selection keeps B and `find_priority` marks exactly (d,A) and
(d,C) for deletion. -/
theorem tie_break_first_max_wins :
    selectOne [("A", 500), ("B", 1000), ("C", 1000)]
        (locationsFor [("d", "A"), ("d", "B"), ("d", "C")] "d") = Except.ok "B"
    ∧ findPriority [("d", "A"), ("d", "B"), ("d", "C")]
        [("A", 500), ("B", 1000), ("C", 1000)] = Except.ok [("d", "A"), ("d", "C")] := by
  decide

/-- C5 counterexample: a DID tagged at the single location X with X
absent from the capacity dictionary: `find_priority` does not produce
the keep-everything decision a zero-capacity fallback would give; it
aborts with `KeyError`. -/
theorem missing_capacity_cex :
    findPriority [("d", "X")] [] ≠ Except.ok []
    ∧ findPriority [("d", "X")] [] = Except.error PyErr.keyError := by
  decide

/-- If some processed did raises an uncaught `KeyError` and every did
either succeeds or raises `KeyError`, the whole loop aborts with
`KeyError`. -/
lemma findPriorityAux_error_of_mem (tagged : List (String × String))
    (dict : List (String × Nat)) (ds : List String) (d : String) (hdin : d ∈ ds)
    (herr : processDid tagged dict d = Except.error PyErr.keyError)
    (hdich : ∀ d' ∈ ds, processDid tagged dict d' = Except.error PyErr.keyError
      ∨ ∃ v, processDid tagged dict d' = Except.ok v) :
    findPriorityAux tagged dict ds = Except.error PyErr.keyError := by
  induction ds with
  | nil => cases hdin
  | cons a rest ih =>
    rcases hdich a (List.mem_cons_self a rest) with ha | ⟨v, hv⟩
    · simp [findPriorityAux, ha]
    · rcases List.mem_cons.mp hdin with heq | hmem
      · rw [heq, hv] at herr; cases herr
      · have hrest := ih hmem fun x hx => hdich x (List.mem_cons_of_mem a hx)
        simp [findPriorityAux, hv, hrest]

/-- C5 (amended): a location absent from the capacity dictionary is not
treated as zero capacity: the lookup raises `KeyError`, nothing in
`find_priority` catches it, and the whole deletion pass aborts with that
error, producing no keep/delete decision for any DID. -/
theorem missing_capacity_aborts_pass (tagged : List (String × String))
    (dict : List (String × Nat)) (p : String × String)
    (hp : p ∈ tagged) (hmiss : lookupRse dict p.2 = none) :
    findPriority tagged dict = Except.error PyErr.keyError := by
  have hd : p.1 ∈ uniqueDids tagged :=
    mem_uniqueDids.mpr (List.mem_map.mpr ⟨p, hp, rfl⟩)
  have hloc : p.2 ∈ locationsFor tagged p.1 :=
    List.mem_map.mpr ⟨p, List.mem_filter.mpr ⟨hp, by simp⟩, rfl⟩
  have herr : processDid tagged dict p.1 = Except.error PyErr.keyError := by
    have hsto := storages_error_of_missing dict (locationsFor tagged p.1) p.2 hloc hmiss
    simp [processDid, selectOne, hsto, Except.map]
  have hdich : ∀ d' ∈ uniqueDids tagged,
      processDid tagged dict d' = Except.error PyErr.keyError
      ∨ ∃ v, processDid tagged dict d' = Except.ok v := by
    intro d' hd'
    rcases hsto' : storages dict (locationsFor tagged d') with e | caps
    · left
      have he := storages_error_eq _ _ _ hsto'
      subst he
      simp [processDid, selectOne, hsto', Except.map]
    · right
      have hne := locationsFor_ne_nil hd'
      have hsel := selectOne_eq_ok dict _ caps hsto' hne
      refine ⟨((locationsFor tagged d').filter fun rse =>
          rse != (locationsFor tagged d').getD (argmaxIdx caps) "").map
          (fun rse => (d', rse)), ?_⟩
      simp [processDid, hsel, Except.map]
  exact findPriorityAux_error_of_mem tagged dict (uniqueDids tagged) p.1 hd herr hdich

/-- C5 witness: the abort-on-missing-capacity behaviour instantiated at a
DID tagged at two locations, one of them without a capacity entry. -/
theorem missing_capacity_aborts_pass_witness :
    (("e", "W") ∈ [("e", "Z"), ("e", "W")])
    ∧ lookupRse [("Z", 3)] ("e", "W").2 = none
    ∧ findPriority [("e", "Z"), ("e", "W")] [("Z", 3)] = Except.error PyErr.keyError :=
  ⟨by decide, by decide,
    missing_capacity_aborts_pass [("e", "Z"), ("e", "W")] [("Z", 3)] ("e", "W")
      (by decide) (by decide)⟩

/-- C6 counterexample: the per-DID selection run on an empty location
list raises `ValueError` (from `np.argmax` of an empty sequence), not
the `NoLocationError` the claim names, and yields no decision. -/
theorem zero_locations_cex :
    selectOne [("A", 1)] [] = Except.error PyErr.valueError
    ∧ selectOne [("A", 1)] [] ≠ Except.error PyErr.noLocationError := by
  decide

/-- C6 (amended): `delete.py` defines no `NoLocationError`, and
`find_priority` can never process a DID with zero locations: every did
it iterates over comes from the tagged array itself, so it has at least
one tagged location; were the per-DID body nevertheless run on an empty
location list, `np.argmax` would raise an uncaught `ValueError`,
aborting the pass rather than logging and skipping the DID. -/
theorem zero_locations_unreachable (tagged : List (String × String))
    (dict : List (String × Nat)) (d : String) (hd : d ∈ uniqueDids tagged) :
    locationsFor tagged d ≠ []
    ∧ selectOne dict [] = Except.error PyErr.valueError :=
  ⟨locationsFor_ne_nil hd, rfl⟩

/-- C6 witness: the amended claim instantiated at a singleton tagged
array. -/
theorem zero_locations_unreachable_witness :
    ("d" ∈ uniqueDids [("d", "A")])
    ∧ (locationsFor [("d", "A")] "d" ≠ []
      ∧ selectOne [("B", 7)] [] = Except.error PyErr.valueError) :=
  ⟨by decide, zero_locations_unreachable [("d", "A")] [("B", 7)] "d" (by decide)⟩

/-! ## Claims about the tagging scan -/

/-- C3: the tagging scan's `np.append` results are discarded, so after
`find_single_copy`'s loop the `tagged_dids` and `tagged_on_rse` arrays
still hold their initial empty values, for every database input and
every flag setting. -/
theorem tagged_arrays_stay_empty (rawDtypes : List String) (raw_type_only : Bool)
    (exclude_rses : List String) (runs : List Run) :
    (findSingleCopy rawDtypes raw_type_only exclude_rses initState runs).1.tagged_dids
        = ([] : List String)
    ∧ (findSingleCopy rawDtypes raw_type_only exclude_rses initState runs).1.tagged_on_rse
        = ([] : List String) := by
  unfold findSingleCopy
  rw [findSingleCopyLoop_id]
  exact ⟨rfl, rfl⟩

/-- C9: the final report line of `find_single_copy` reads the unbound
name `tagged_dids` and so raises `NameError` on every invocation that
finishes the tagging loop; consequently `do_task` in 'single_copy' mode
always aborts with that error, before `find_priority` or any deletion
call is reached. -/
theorem find_single_copy_name_error (rawDtypes : List String)
    (dict : List (String × Nat)) (runs : List Run) (raw_type_only : Bool)
    (exclude_rses : List String) (s : TagState) :
    (findSingleCopy rawDtypes raw_type_only exclude_rses s runs).2
        = Except.error PyErr.nameError
    ∧ doTask rawDtypes dict runs "single_copy" raw_type_only exclude_rses
        = Except.error PyErr.nameError := by
  constructor
  · rfl
  · rfl

end Admix
